import Mathlib

/-!
Shallow embedding of the SpotifySort library engine
(`spotifysort/playlist_manager.py`, `spotifysort/library_analyzer.py`).

Remote effects (Spotify API calls) are modelled by explicit oracles:
* playlist creation is an oracle from the bucket label to `Option String`
  (`none` = the call raised an exception);
* batch writes (`playlist_add_items`) are an oracle from the call's batch
  index to `Bool` (`true` = that call raised);
* artist genre lookup (`sp.artist`) is an oracle `String → Option (List String)`
  (`none` = the call raised);
* audio-feature lookup is an oracle `String → Option AudioFeatures`
  (`none` = the id is unresolvable / the service returned a falsy entry).

Python truthiness (`if limit:`, `if year_from or year_to:`, `if t.get('uri')`)
is embedded explicitly: `None`, `0`, `""` and `[]` are falsy.
-/

set_option maxRecDepth 100000

namespace SpotifySort

/-- An artist reference as stored on a track dict: `{'id': ..., 'name': ...}`. -/
structure ArtistRef where
  id : String
  name : String
  deriving Repr, DecidableEq

/-- The track dictionary produced by `_extract_track_info` (the fields the
engine reads: `id`, `name`, `artists`, `uri`, `release_year`).
`release_year` is `none` when the album has no release date;
`uri` is `none` when the playable-resource URI is absent. -/
structure Track where
  id : String
  name : String
  artists : List ArtistRef
  uri : Option String
  release_year : Option Nat
  deriving Repr, DecidableEq

/-- Audio features used by the mood logic, as exact rationals
(the engine only ever compares them against constant thresholds). -/
structure AudioFeatures where
  valence : ℚ
  energy : ℚ
  danceability : ℚ
  acousticness : ℚ
  tempo : ℚ
  deriving Repr, DecidableEq

/-- Python truthiness of an optional integer: `None` and `0` are falsy. -/
def pyTruthyNat : Option Nat → Bool
  | none => false
  | some n => n != 0

/-- Python truthiness of an optional string: `None` and `""` are falsy. -/
def pyTruthyStr : Option String → Bool
  | none => false
  | some s => !s.isEmpty

/-- Python truthiness of an optional list: `None` and `[]` are falsy. -/
def pyTruthyList {α : Type} : Option (List α) → Bool
  | none => false
  | some l => !l.isEmpty

/-- `t.get('uri')` truthiness used by every builder:
the writable URI of a track, `none` when absent or empty. -/
def writableUri (t : Track) : Option String :=
  match t.uri with
  | none => none
  | some u => if u.isEmpty then none else some u

/-! ## `add_tracks_to_playlist` (playlist_manager.py lines 47–75)

`for i in range(0, len(track_uris), 100): batch = track_uris[i:i+100]; ...`
The slices are the chunks of size at most 100, in order. -/

/-- Fuel-driven worker for `chunks` (structural recursion on the fuel so
that concrete instances reduce in the kernel). The fuel is always at
least the list length at every call site. -/
def chunksGo : Nat → List String → List (List String)
  | _, [] => []
  | 0, _ :: _ => []
  | fuel + 1, x :: xs => ((x :: xs).take 100) :: chunksGo fuel ((x :: xs).drop 100)

/-- The batches `track_uris[i:i+100]` for `i = 0, 100, 200, ...`. -/
def chunks (l : List String) : List (List String) :=
  chunksGo l.length l

/-- Issue the batch write calls in order; `fail i = true` means the `i`-th
call (0-based) raises. Returns the list of batches actually issued
(the failing call is issued — it raises on the remote side) and the
boolean result of `add_tracks_to_playlist` (`False` on any exception). -/
def runBatches (fail : Nat → Bool) : List (List String) → Nat → List (List String) × Bool
  | [], _ => ([], true)
  | b :: rest, i =>
    if fail i then ([b], false)
    else
      let r := runBatches fail rest (i + 1)
      (b :: r.1, r.2)

/-- `add_tracks_to_playlist`: empty URI list short-circuits to `False`
with no write call; otherwise the chunks are written sequentially and
the first exception stops the loop and yields `False`. -/
def add_tracks_to_playlist (fail : Nat → Bool) (track_uris : List String) :
    List (List String) × Bool :=
  if track_uris.isEmpty then ([], false)
  else runBatches fail (chunks track_uris) 0

lemma chunksGo_join :
    ∀ (fuel : Nat) (l : List String), l.length ≤ fuel →
      (chunksGo fuel l).flatten = l := by
  intro fuel
  induction fuel with
  | zero =>
    intro l hl
    cases l with
    | nil => simp [chunksGo]
    | cons x xs => simp at hl
  | succ f ih =>
    intro l hl
    cases l with
    | nil => simp [chunksGo]
    | cons x xs =>
      rw [chunksGo, List.flatten_cons, ih _ (by simp at hl ⊢; omega),
        List.take_append_drop]

lemma chunks_join (l : List String) : (chunks l).flatten = l :=
  chunksGo_join l.length l le_rfl

lemma chunksGo_length_le :
    ∀ (fuel : Nat) (l : List String), ∀ b ∈ chunksGo fuel l, b.length ≤ 100 := by
  intro fuel
  induction fuel with
  | zero =>
    intro l b hb
    cases l <;> simp [chunksGo] at hb
  | succ f ih =>
    intro l b hb
    cases l with
    | nil => simp [chunksGo] at hb
    | cons x xs =>
      rw [chunksGo] at hb
      rcases List.mem_cons.1 hb with h | h
      · subst h; simp
      · exact ih _ b h

lemma chunks_length_le (l : List String) :
    ∀ b ∈ chunks l, b.length ≤ 100 :=
  chunksGo_length_le l.length l

/-- If calls `i, i+1, ..., i+k-1` succeed and call `i+k` fails
(with `k` batches available beyond the `k`-th), then exactly the first
`k+1` batches are issued and the result is `False`. -/
lemma runBatches_fail_at (fail : Nat → Bool) :
    ∀ (bs : List (List String)) (i k : Nat),
      (∀ j, j < k → fail (i + j) = false) → fail (i + k) = true →
      k < bs.length →
      runBatches fail bs i = (bs.take (k + 1), false) := by
  intro bs
  induction bs with
  | nil => intro i k _ _ hk; simp at hk
  | cons b rest ih =>
    intro i k hpre hfail hk
    cases k with
    | zero =>
      simp only [Nat.add_zero] at hfail
      simp [runBatches, hfail]
    | succ k' =>
      have h0 : fail i = false := by
        have := hpre 0 (Nat.succ_pos k')
        simpa using this
      have hrec : runBatches fail rest (i + 1) = (rest.take (k' + 1), false) := by
        apply ih (i + 1) k'
        · intro j hj
          have := hpre (j + 1) (Nat.succ_lt_succ hj)
          simpa [Nat.add_comm, Nat.add_assoc, Nat.add_left_comm] using this
        · have : i + 1 + k' = i + (k' + 1) := by omega
          rw [this]; exact hfail
        · simpa using Nat.lt_of_succ_lt_succ hk
      simp [runBatches, h0, hrec]

/-- No-failure case: every batch is issued and the result is `True`. -/
lemma runBatches_all_ok (fail : Nat → Bool) :
    ∀ (bs : List (List String)) (i : Nat),
      (∀ j, fail j = false) → runBatches fail bs i = (bs, true) := by
  intro bs
  induction bs with
  | nil => intro i _; simp [runBatches]
  | cons b rest ih =>
    intro i hok
    simp [runBatches, hok i, ih (i + 1) hok]

/-! ## The Batch Playlist Builder (playlist_manager.py)

`create_playlist` is modelled by an oracle keyed by the bucket label
(the playlist name is a pure function of the label, so a per-call failure
is a per-label failure); `none` means the creation call raised. Batch
writes after a successful creation are the `addFail` oracle, indexed by
the created playlist id and the batch index. -/

/-- The write-side oracles of one builder run, for bucket labels of type `K`. -/
structure CatalogWriter (K : Type) where
  create : K → Option String
  addFail : String → Nat → Bool

/-- Observable outcome of one builder run: the returned success map
(`created_playlists`, in insertion order) and the ordered list of bucket
labels for which a `create_playlist` call was issued. -/
structure BuildOut (K : Type) where
  created : List (K × String)
  createCalls : List K
  deriving Repr, DecidableEq

/-- One iteration of the `create_genre_playlists` loop body
(the same body is used by the mood builder): skip falsy track lists,
create, write URIs in batches (result ignored by the source), record the
bucket in the success map. A creation exception is caught and logged. -/
def genreStep (cw : CatalogWriter String) (out : BuildOut String)
    (bucket : String × List Track) : BuildOut String :=
  if bucket.2.isEmpty then out
  else
    match cw.create bucket.1 with
    | none => { out with createCalls := out.createCalls ++ [bucket.1] }
    | some pid =>
      let track_uris := bucket.2.filterMap writableUri
      let _ := add_tracks_to_playlist (cw.addFail pid) track_uris
      { created := out.created ++ [(bucket.1, pid)],
        createCalls := out.createCalls ++ [bucket.1] }

/-- `create_genre_playlists` (lines 77–112): iterate the genre map in its
insertion order. -/
def create_genre_playlists (cw : CatalogWriter String)
    (genre_map : List (String × List Track)) : BuildOut String :=
  genre_map.foldl (genreStep cw) ⟨[], []⟩

/-- Loop body of `create_artist_playlists` (lines 134–147): no emptiness
check (the map was already filtered by `min_tracks`). -/
def artistStep (cw : CatalogWriter String) (out : BuildOut String)
    (bucket : String × List Track) : BuildOut String :=
  match cw.create bucket.1 with
  | none => { out with createCalls := out.createCalls ++ [bucket.1] }
  | some pid =>
    let track_uris := bucket.2.filterMap writableUri
    let _ := add_tracks_to_playlist (cw.addFail pid) track_uris
    { created := out.created ++ [(bucket.1, pid)],
      createCalls := out.createCalls ++ [bucket.1] }

/-- `create_artist_playlists` (lines 114–149): first keep only the artists
with at least `min_tracks` tracks (`min_tracks` defaults to 5), then run
the creation loop over the filtered map. -/
def create_artist_playlists (cw : CatalogWriter String)
    (artist_map : List (String × List Track)) (min_tracks : Nat := 5) :
    BuildOut String :=
  let filtered_artists := artist_map.filter (fun kv => min_tracks ≤ kv.2.length)
  filtered_artists.foldl (artistStep cw) ⟨[], []⟩

/-- `defaultdict`-style grouping used by `create_decade_playlists`
(and, with string keys, by the genre analyzer): append to an existing
bucket in place, or add a fresh bucket at the end. -/
def insertBucket {K : Type} [DecidableEq K] (m : List (K × List Track))
    (k : K) (t : Track) : List (K × List Track) :=
  if k ∈ m.map Prod.fst then
    m.map (fun kv => if kv.1 = k then (kv.1, kv.2 ++ [t]) else kv)
  else m ++ [(k, [t])]

/-- `track.get('release_year')` followed by `if year:` and
`decade = (year // 10) * 10` — the decade key of a track, `none` when the
release year is absent or zero (falsy). -/
def decadeKey (t : Track) : Option Nat :=
  match t.release_year with
  | none => none
  | some y => if y = 0 then none else some (y / 10 * 10)

/-- Loop body of `create_decade_playlists` (lines 239–252): identical to
the artist loop body, with decade keys. -/
def decadeStep (cw : CatalogWriter Nat) (out : BuildOut Nat)
    (bucket : Nat × List Track) : BuildOut Nat :=
  match cw.create bucket.1 with
  | none => { out with createCalls := out.createCalls ++ [bucket.1] }
  | some pid =>
    let track_uris := bucket.2.filterMap writableUri
    let _ := add_tracks_to_playlist (cw.addFail pid) track_uris
    { created := out.created ++ [(bucket.1, pid)],
      createCalls := out.createCalls ++ [bucket.1] }

/-- `create_decade_playlists` (lines 212–254): group the tracks by decade
into a dict (insertion order of first appearance), then iterate the dict
items in that order. -/
def create_decade_playlists (cw : CatalogWriter Nat) (tracks : List Track) :
    BuildOut Nat :=
  let decade_map := tracks.foldl (fun m t =>
    match decadeKey t with
    | none => m
    | some d => insertBucket m d t) []
  decade_map.foldl (decadeStep cw) ⟨[], []⟩

/-- First-occurrence deduplication of a key sequence relative to an
already-seen set: the iteration order of a Python dict built by repeated
insertion. -/
def firstSeen {K : Type} [DecidableEq K] (seen : List K) : List K → List K
  | [] => []
  | k :: ks => if k ∈ seen then firstSeen seen ks else k :: firstSeen (k :: seen) ks

/-! ### Characterizations of the builder loops -/

/-- The expected success-map entry of one genre/mood bucket:
present iff the track list is truthy and creation succeeded,
independent of any batch-write outcome. -/
def expectedEntry (cw : CatalogWriter String) (kv : String × List Track) :
    Option (String × String) :=
  if kv.2.isEmpty then none
  else (cw.create kv.1).map (fun pid => (kv.1, pid))

lemma foldl_genreStep (cw : CatalogWriter String) :
    ∀ (l : List (String × List Track)) (out : BuildOut String),
      l.foldl (genreStep cw) out =
        ⟨out.created ++ l.filterMap (expectedEntry cw),
         out.createCalls ++ (l.filter (fun kv => !kv.2.isEmpty)).map Prod.fst⟩ := by
  intro l
  induction l with
  | nil => intro out; simp
  | cons kv rest ih =>
    intro out
    rw [List.foldl_cons, ih]
    by_cases h : kv.2.isEmpty
    · simp [genreStep, expectedEntry, h]
    · cases hc : cw.create kv.1 with
      | none => simp [genreStep, expectedEntry, h, hc]
      | some pid => simp [genreStep, expectedEntry, h, hc]

lemma foldl_artistStep (cw : CatalogWriter String) :
    ∀ (l : List (String × List Track)) (out : BuildOut String),
      l.foldl (artistStep cw) out =
        ⟨out.created ++ l.filterMap (fun kv => (cw.create kv.1).map (fun pid => (kv.1, pid))),
         out.createCalls ++ l.map Prod.fst⟩ := by
  intro l
  induction l with
  | nil => intro out; simp
  | cons kv rest ih =>
    intro out
    rw [List.foldl_cons, ih]
    cases hc : cw.create kv.1 with
    | none => simp [artistStep, hc]
    | some pid => simp [artistStep, hc]

lemma foldl_decadeStep (cw : CatalogWriter Nat) :
    ∀ (l : List (Nat × List Track)) (out : BuildOut Nat),
      l.foldl (decadeStep cw) out =
        ⟨out.created ++ l.filterMap (fun kv => (cw.create kv.1).map (fun pid => (kv.1, pid))),
         out.createCalls ++ l.map Prod.fst⟩ := by
  intro l
  induction l with
  | nil => intro out; simp
  | cons kv rest ih =>
    intro out
    rw [List.foldl_cons, ih]
    cases hc : cw.create kv.1 with
    | none => simp [decadeStep, hc]
    | some pid => simp [decadeStep, hc]

lemma insertBucket_keys {K : Type} [DecidableEq K]
    (m : List (K × List Track)) (k : K) (t : Track) :
    (insertBucket m k t).map Prod.fst =
      if k ∈ m.map Prod.fst then m.map Prod.fst else m.map Prod.fst ++ [k] := by
  unfold insertBucket
  by_cases h : k ∈ m.map Prod.fst
  · rw [if_pos h, if_pos h, List.map_map]
    apply List.map_congr_left
    intro kv _
    by_cases hk : kv.1 = k <;> simp [hk]
  · rw [if_neg h, if_neg h]
    simp

lemma firstSeen_congr {K : Type} [DecidableEq K] :
    ∀ (l : List K) (s1 s2 : List K), (∀ x, x ∈ s1 ↔ x ∈ s2) →
      firstSeen s1 l = firstSeen s2 l := by
  intro l
  induction l with
  | nil => intro s1 s2 _; simp [firstSeen]
  | cons k ks ih =>
    intro s1 s2 hs
    by_cases h : k ∈ s1
    · rw [firstSeen, firstSeen, if_pos h, if_pos ((hs k).1 h)]
      exact ih s1 s2 hs
    · rw [firstSeen, firstSeen, if_neg h, if_neg (fun hc => h ((hs k).2 hc))]
      rw [ih (k :: s1) (k :: s2) (by intro x; simp [hs x])]

/-- The keys of the decade grouping fold, relative to an already-built map:
first-appearance order of the decade keys. -/
lemma decadeFold_keys :
    ∀ (ts : List Track) (m : List (Nat × List Track)),
      ((ts.foldl (fun m t =>
          match decadeKey t with
          | none => m
          | some d => insertBucket m d t) m).map Prod.fst) =
        m.map Prod.fst ++ firstSeen (m.map Prod.fst) (ts.filterMap decadeKey) := by
  intro ts
  induction ts with
  | nil => intro m; simp [firstSeen]
  | cons t rest ih =>
    intro m
    rw [List.foldl_cons, List.filterMap_cons]
    cases hd : decadeKey t with
    | none => simpa using ih m
    | some d =>
      have hkeys := insertBucket_keys m d t
      by_cases h : d ∈ m.map Prod.fst
      · rw [if_pos h] at hkeys
        rw [ih (insertBucket m d t), hkeys]
        simp [firstSeen, h]
      · rw [if_neg h] at hkeys
        rw [ih (insertBucket m d t), hkeys]
        have hcong : firstSeen (m.map Prod.fst ++ [d]) (rest.filterMap decadeKey) =
            firstSeen (d :: m.map Prod.fst) (rest.filterMap decadeKey) := by
          apply firstSeen_congr
          intro x
          simp [or_comm]
        rw [hcong]
        simp [firstSeen, h]

/-! ## `analyze_library_by_genre` (library_analyzer.py lines 203–234)

For each track the code reads `track['artists'][0]['id']` (outside any
`try`: a track with no artists crashes the whole run, modelled as `none`)
and then issues one `sp.artist(artist_id)` call — there is no cache, so
the lookup oracle is consulted once per track. An exception from the
lookup is caught and the track is bucketed as `"Unknown"`; an artist with
no genres also yields `"Unknown"`; otherwise the track joins every one of
the artist's genre buckets. The second component counts the remote
artist-lookup calls issued. -/

def genreLookupStep (ag : String → Option (List String))
    (st : List (String × List Track) × Nat) (t : Track) :
    Option (List (String × List Track) × Nat) :=
  match t.artists with
  | [] => none
  | a :: _ =>
    match ag a.id with
    | some gs =>
      let genres := if gs.isEmpty then ["Unknown"] else gs
      some (genres.foldl (fun m g => insertBucket m g t) st.1, st.2 + 1)
    | none => some (insertBucket st.1 "Unknown" t, st.2 + 1)

def analyze_library_by_genre (ag : String → Option (List String))
    (tracks : List Track) : Option (List (String × List Track) × Nat) :=
  tracks.foldlM (genreLookupStep ag) ([], 0)

lemma genreLookupStep_count (ag : String → Option (List String))
    (st : List (String × List Track) × Nat) (t : Track) (r) :
    genreLookupStep ag st t = some r → r.2 = st.2 + 1 := by
  intro h
  obtain ⟨m2, n2⟩ := r
  unfold genreLookupStep at h
  cases ht : t.artists with
  | nil => rw [ht] at h; exact absurd h (by simp)
  | cons a rest =>
    rw [ht] at h
    cases hg : ag a.id with
    | some gs =>
      simp [hg] at h
      exact h.2.symm
    | none =>
      simp [hg] at h
      exact h.2.symm

lemma foldlM_genre_count (ag : String → Option (List String)) :
    ∀ (tracks : List Track) (st : List (String × List Track) × Nat) (r),
      tracks.foldlM (genreLookupStep ag) st = some r →
      r.2 = st.2 + tracks.length := by
  intro tracks
  induction tracks with
  | nil =>
    intro st r h
    simp [List.foldlM] at h
    rw [← h]
    simp
  | cons t rest ih =>
    intro st r h
    rw [List.foldlM_cons] at h
    cases hs : genreLookupStep ag st t with
    | none => rw [hs] at h; exact absurd h (by simp)
    | some st' =>
      rw [hs] at h
      simp only [Option.bind_eq_bind, Option.some_bind] at h
      have h1 := genreLookupStep_count ag st t st' hs
      have h2 := ih st' r h
      rw [h2, h1]
      simp [Nat.add_comm, Nat.add_assoc, Nat.add_left_comm]

/-! ## `get_saved_tracks` — the Paginator (library_analyzer.py lines 20–57)

The page-fetch sequence delivered by the service is a list of pages, each
carrying its items and the truthiness of `results['next']`. The loop
fetches the pages in order; fetching past the provided sequence returns
an empty page (the `[]` case counts that final call). The inner loop
appends items one at a time and breaks as soon as `limit` is truthy and
reached; the outer loop breaks on an empty page, a falsy `next`, or a
satisfied truthy limit; the final statement is
`tracks[:limit] if limit else tracks`. The second component counts the
page-fetch calls issued. -/

structure Page where
  items : List Track
  next : Bool
  deriving Repr, DecidableEq

/-- The inner `for item in results['items']` loop: append until the
truthy limit is reached (Python checks after appending, so exactly
`limit - len(acc)` items are taken from a page that overshoots). -/
def appendPage (limit : Option Nat) (acc items : List Track) : List Track :=
  if pyTruthyNat limit then acc ++ items.take (limit.getD 0 - acc.length)
  else acc ++ items

/-- The `while True` fetch loop. Each case issues one page-fetch call. -/
def fetchLoop (limit : Option Nat) : List Page → List Track → List Track × Nat
  | [], acc => (acc, 1)
  | p :: rest, acc =>
    if p.items.isEmpty then (acc, 1)
    else
      let acc2 := appendPage limit acc p.items
      if !p.next || (pyTruthyNat limit && decide (limit.getD 0 ≤ acc2.length)) then
        (acc2, 1)
      else
        let r := fetchLoop limit rest acc2
        (r.1, r.2 + 1)

/-- `get_saved_tracks`: run the fetch loop from an empty accumulator and
apply the final `tracks[:limit] if limit else tracks`. Returns the track
list and the number of page-fetch calls issued. -/
def get_saved_tracks (pages : List Page) (limit : Option Nat) :
    List Track × Nat :=
  let r := fetchLoop limit pages []
  (if pyTruthyNat limit then r.1.take (limit.getD 0) else r.1, r.2)

/-- A well-formed page-fetch sequence: every page before the last is
non-empty and signals a successor; the last page signals no successor. -/
def wellFormed : List Page → Bool
  | [] => true
  | [p] => !p.next
  | p :: q :: rest => !p.items.isEmpty && p.next && wellFormed (q :: rest)

/-- The minimal number of page fetches needed to collect `l` items
(one final call when the pages run out first). -/
def pagesNeeded (l : Nat) : List Page → Nat
  | [] => 1
  | p :: rest =>
    if l ≤ p.items.length then 1 else 1 + pagesNeeded (l - p.items.length) rest

lemma one_le_pagesNeeded (l : Nat) (pages : List Page) :
    1 ≤ pagesNeeded l pages := by
  cases pages with
  | nil => simp [pagesNeeded]
  | cons p rest =>
    unfold pagesNeeded
    split <;> omega

lemma appendPage_some (l : Nat) (hl0 : l ≠ 0) (acc items : List Track) :
    appendPage (some l) acc items = acc ++ items.take (l - acc.length) := by
  simp [appendPage, pyTruthyNat, hl0]

lemma appendPage_none (acc items : List Track) :
    appendPage none acc items = acc ++ items := by
  simp [appendPage, pyTruthyNat]

lemma wellFormed_cons_cons {p q : Page} {rs : List Page}
    (h : wellFormed (p :: q :: rs) = true) :
    p.items.isEmpty = false ∧ p.next = true ∧ wellFormed (q :: rs) = true := by
  simp only [wellFormed, Bool.and_eq_true, Bool.not_eq_true'] at h
  exact ⟨h.1.1, h.1.2, h.2⟩

lemma wellFormed_single {p : Page} (h : wellFormed [p] = true) :
    p.next = false := by
  simp only [wellFormed, Bool.not_eq_true'] at h
  exact h

/-- Collected items under a truthy limit: the prefix of the flattened
page sequence, relative to an accumulator still below the limit. -/
lemma fetchLoop_items_limited (l : Nat) (hl : 0 < l) :
    ∀ (pages : List Page) (acc : List Track), wellFormed pages = true →
      acc.length < l →
      ((fetchLoop (some l) pages acc).1).take l =
        (acc ++ (pages.map Page.items).flatten).take l := by
  intro pages
  induction pages with
  | nil => intro acc _ _; simp [fetchLoop]
  | cons p rest ih =>
    intro acc hwf hacc
    have hl0 : l ≠ 0 := by omega
    by_cases hpe : p.items.isEmpty
    · have hpnil : p.items = [] := by simpa using hpe
      cases rest with
      | nil => simp [fetchLoop, hpe, hpnil]
      | cons q rs =>
        exact absurd (wellFormed_cons_cons hwf).1 (by simp [hpe])
    · have happ : appendPage (some l) acc p.items =
          acc ++ p.items.take (l - acc.length) := appendPage_some l hl0 acc p.items
      have hlen2 : (appendPage (some l) acc p.items).length =
          acc.length + min (l - acc.length) p.items.length := by
        rw [happ]; simp
      simp only [fetchLoop]
      rw [if_neg hpe]
      by_cases hsat : l ≤ (appendPage (some l) acc p.items).length
      · -- the limit is satisfied on this page: the loop breaks here
        have hguard : (!p.next ||
            (pyTruthyNat (some l) &&
              decide ((some l).getD 0 ≤ (appendPage (some l) acc p.items).length))) = true := by
          simp [pyTruthyNat, hl0, hsat]
        rw [if_pos hguard]
        have h0 : l - acc.length - p.items.length = 0 := by omega
        simp only [happ, List.map_cons, List.flatten_cons,
          List.take_append_eq_append_take, List.take_take, Nat.min_self, h0,
          List.take_zero, List.append_nil]
      · -- the page did not satisfy the limit: all its items were taken
        have hfull : p.items.take (l - acc.length) = p.items := by
          apply List.take_of_length_le
          omega
        have hacc2 : appendPage (some l) acc p.items = acc ++ p.items := by
          rw [happ, hfull]
        by_cases hnext : p.next
        · -- more pages announced: the loop continues
          have hguard : ¬ ((!p.next ||
              (pyTruthyNat (some l) &&
                decide ((some l).getD 0 ≤ (appendPage (some l) acc p.items).length))) = true) := by
            simp [pyTruthyNat, hl0, hsat, hnext]
          rw [if_neg hguard]
          cases rest with
          | nil =>
            rw [wellFormed_single hwf] at hnext
            exact absurd hnext (by simp)
          | cons q rs =>
            have hwf' := (wellFormed_cons_cons hwf).2.2
            have hlt2 : (appendPage (some l) acc p.items).length < l := by omega
            have hrec := ih (appendPage (some l) acc p.items) hwf' hlt2
            rw [hacc2] at hrec
            rw [hacc2, hrec]
            simp [List.append_assoc]
        · -- `the next field` is falsy: the loop breaks; no further pages exist
          have hguard : (!p.next ||
              (pyTruthyNat (some l) &&
                decide ((some l).getD 0 ≤ (appendPage (some l) acc p.items).length))) = true := by
            simp [hnext]
          rw [if_pos hguard]
          have hrest : rest = [] := by
            cases rest with
            | nil => rfl
            | cons q rs =>
              rw [(wellFormed_cons_cons hwf).2.1] at hnext
              exact absurd rfl hnext
          subst hrest
          rw [hacc2]
          simp

/-- Collected items with no limit: the whole flattened page sequence. -/
lemma fetchLoop_items_nolimit :
    ∀ (pages : List Page) (acc : List Track), wellFormed pages = true →
      (fetchLoop none pages acc).1 = acc ++ (pages.map Page.items).flatten := by
  intro pages
  induction pages with
  | nil => intro acc _; simp [fetchLoop]
  | cons p rest ih =>
    intro acc hwf
    by_cases hpe : p.items.isEmpty
    · have hpnil : p.items = [] := by simpa using hpe
      cases rest with
      | nil => simp [fetchLoop, hpe, hpnil]
      | cons q rs =>
        exact absurd (wellFormed_cons_cons hwf).1 (by simp [hpe])
    · simp only [fetchLoop]
      rw [if_neg hpe, appendPage_none]
      by_cases hnext : p.next
      · have hguard : ¬ ((!p.next ||
            (pyTruthyNat none &&
              decide ((none : Option Nat).getD 0 ≤ (acc ++ p.items).length))) = true) := by
          simp [pyTruthyNat, hnext]
        rw [if_neg hguard]
        cases rest with
        | nil =>
          rw [wellFormed_single hwf] at hnext
          exact absurd hnext (by simp)
        | cons q rs =>
          have hwf' := (wellFormed_cons_cons hwf).2.2
          have hrec := ih (acc ++ p.items) hwf'
          simp only [hrec, List.map_cons, List.flatten_cons, List.append_assoc]
      · have hguard : (!p.next ||
            (pyTruthyNat none &&
              decide ((none : Option Nat).getD 0 ≤ (acc ++ p.items).length))) = true := by
          simp [hnext]
        rw [if_pos hguard]
        have hrest : rest = [] := by
          cases rest with
          | nil => rfl
          | cons q rs =>
            rw [(wellFormed_cons_cons hwf).2.1] at hnext
            exact absurd rfl hnext
        subst hrest
        simp

/-- Call-count bound: the loop never fetches past the page that
satisfies the remaining limit. -/
lemma fetchLoop_calls (l : Nat) (hl : 0 < l) :
    ∀ (pages : List Page) (acc : List Track), wellFormed pages = true →
      acc.length < l →
      (fetchLoop (some l) pages acc).2 ≤ pagesNeeded (l - acc.length) pages := by
  intro pages
  induction pages with
  | nil =>
    intro acc _ _
    simp [fetchLoop, pagesNeeded]
  | cons p rest ih =>
    intro acc hwf hacc
    have hl0 : l ≠ 0 := by omega
    by_cases hpe : p.items.isEmpty
    · simp only [fetchLoop]
      rw [if_pos hpe]
      exact one_le_pagesNeeded _ _
    · have happ : appendPage (some l) acc p.items =
          acc ++ p.items.take (l - acc.length) := appendPage_some l hl0 acc p.items
      have hlen2 : (appendPage (some l) acc p.items).length =
          acc.length + min (l - acc.length) p.items.length := by
        rw [happ]; simp
      simp only [fetchLoop]
      rw [if_neg hpe]
      by_cases hsat : l ≤ (appendPage (some l) acc p.items).length
      · have hguard : (!p.next ||
            (pyTruthyNat (some l) &&
              decide ((some l).getD 0 ≤ (appendPage (some l) acc p.items).length))) = true := by
          simp [pyTruthyNat, hl0, hsat]
        rw [if_pos hguard]
        exact one_le_pagesNeeded _ _
      · by_cases hnext : p.next
        · have hguard : ¬ ((!p.next ||
              (pyTruthyNat (some l) &&
                decide ((some l).getD 0 ≤ (appendPage (some l) acc p.items).length))) = true) := by
            simp [pyTruthyNat, hl0, hsat, hnext]
          rw [if_neg hguard]
          cases rest with
          | nil =>
            rw [wellFormed_single hwf] at hnext
            exact absurd hnext (by simp)
          | cons q rs =>
            have hwf' := (wellFormed_cons_cons hwf).2.2
            have hlt2 : (appendPage (some l) acc p.items).length < l := by omega
            have hrec := ih (appendPage (some l) acc p.items) hwf' hlt2
            have hplen : ¬ (l - acc.length ≤ p.items.length) := by omega
            have harith : l - (appendPage (some l) acc p.items).length =
                l - acc.length - p.items.length := by omega
            rw [harith] at hrec
            rw [pagesNeeded]
            rw [if_neg hplen]
            omega
        · have hguard : (!p.next ||
              (pyTruthyNat (some l) &&
                decide ((some l).getD 0 ≤ (appendPage (some l) acc p.items).length))) = true := by
            simp [hnext]
          rw [if_pos hguard]
          exact one_le_pagesNeeded _ _

/-! ## `analyze_library_by_mood` (library_analyzer.py lines 262–309)

Audio features are resolved per track id (the batched fetch drops falsy
entries and `feature_dict.get` returns nothing for unresolved ids, both
folded into the oracle). Tracks without features are skipped. The six
threshold conditions are written here exactly as in the source. -/

/-- `f['valence'] > 0.6 and f['energy'] > 0.6`. -/
def happyCond (f : AudioFeatures) : Bool :=
  decide (f.valence > 0.6) && decide (f.energy > 0.6)

/-- `f['valence'] < 0.4 and f['energy'] < 0.4`. -/
def sadCond (f : AudioFeatures) : Bool :=
  decide (f.valence < 0.4) && decide (f.energy < 0.4)

/-- `f['energy'] > 0.7 and f['tempo'] > 120`. -/
def energeticCond (f : AudioFeatures) : Bool :=
  decide (f.energy > 0.7) && decide (f.tempo > 120)

/-- `f['energy'] < 0.4 and f['tempo'] < 100`. -/
def calmCond (f : AudioFeatures) : Bool :=
  decide (f.energy < 0.4) && decide (f.tempo < 100)

/-- `f['danceability'] > 0.7 and f['energy'] > 0.7`. -/
def partyCond (f : AudioFeatures) : Bool :=
  decide (f.danceability > 0.7) && decide (f.energy > 0.7)

/-- `f['acousticness'] > 0.5 and f['energy'] < 0.5`. -/
def chillCond (f : AudioFeatures) : Bool :=
  decide (f.acousticness > 0.5) && decide (f.energy < 0.5)

/-- The `mood_map` dictionary with its six fixed keys. -/
structure MoodMap where
  happy : List Track
  sad : List Track
  energetic : List Track
  calm : List Track
  party : List Track
  chill : List Track
  deriving Repr, DecidableEq

/-- One iteration of the mood loop: skip tracks without features, then
test all six (non-exclusive) conditions. -/
def moodStep (feat : String → Option AudioFeatures) (m : MoodMap) (t : Track) :
    MoodMap :=
  match feat t.id with
  | none => m
  | some f =>
    let m := if happyCond f then { m with happy := m.happy ++ [t] } else m
    let m := if sadCond f then { m with sad := m.sad ++ [t] } else m
    let m := if energeticCond f then { m with energetic := m.energetic ++ [t] } else m
    let m := if calmCond f then { m with calm := m.calm ++ [t] } else m
    let m := if partyCond f then { m with party := m.party ++ [t] } else m
    if chillCond f then { m with chill := m.chill ++ [t] } else m

def analyze_library_by_mood (feat : String → Option AudioFeatures)
    (tracks : List Track) : MoodMap :=
  tracks.foldl (moodStep feat) ⟨[], [], [], [], [], []⟩

/-- A mood condition lifted to a track through the feature oracle:
`False` for tracks with unresolved features. -/
def featPred (cond : AudioFeatures → Bool)
    (feat : String → Option AudioFeatures) (t : Track) : Bool :=
  match feat t.id with
  | none => false
  | some f => cond f

lemma moodStep_happy (feat : String → Option AudioFeatures) (m : MoodMap)
    (t : Track) :
    (moodStep feat m t).happy =
      if featPred happyCond feat t then m.happy ++ [t] else m.happy := by
  unfold moodStep featPred
  cases feat t.id with
  | none => simp
  | some f => simp [apply_ite MoodMap.happy]

lemma moodStep_sad (feat : String → Option AudioFeatures) (m : MoodMap)
    (t : Track) :
    (moodStep feat m t).sad =
      if featPred sadCond feat t then m.sad ++ [t] else m.sad := by
  unfold moodStep featPred
  cases feat t.id with
  | none => simp
  | some f => simp [apply_ite MoodMap.sad]

lemma moodStep_energetic (feat : String → Option AudioFeatures) (m : MoodMap)
    (t : Track) :
    (moodStep feat m t).energetic =
      if featPred energeticCond feat t then m.energetic ++ [t] else m.energetic := by
  unfold moodStep featPred
  cases feat t.id with
  | none => simp
  | some f => simp [apply_ite MoodMap.energetic]

lemma moodStep_calm (feat : String → Option AudioFeatures) (m : MoodMap)
    (t : Track) :
    (moodStep feat m t).calm =
      if featPred calmCond feat t then m.calm ++ [t] else m.calm := by
  unfold moodStep featPred
  cases feat t.id with
  | none => simp
  | some f => simp [apply_ite MoodMap.calm]

lemma moodStep_party (feat : String → Option AudioFeatures) (m : MoodMap)
    (t : Track) :
    (moodStep feat m t).party =
      if featPred partyCond feat t then m.party ++ [t] else m.party := by
  unfold moodStep featPred
  cases feat t.id with
  | none => simp
  | some f => simp [apply_ite MoodMap.party]

lemma moodStep_chill (feat : String → Option AudioFeatures) (m : MoodMap)
    (t : Track) :
    (moodStep feat m t).chill =
      if featPred chillCond feat t then m.chill ++ [t] else m.chill := by
  unfold moodStep featPred
  cases feat t.id with
  | none => simp
  | some f => simp [apply_ite MoodMap.chill]

/-- Generic accumulation of one mood bucket over the fold. -/
lemma foldl_moodStep_proj (feat : String → Option AudioFeatures)
    (proj : MoodMap → List Track) (cond : AudioFeatures → Bool)
    (hstep : ∀ m t, proj (moodStep feat m t) =
      if featPred cond feat t then proj m ++ [t] else proj m) :
    ∀ (tracks : List Track) (m0 : MoodMap),
      proj (tracks.foldl (moodStep feat) m0) =
        proj m0 ++ tracks.filter (featPred cond feat) := by
  intro tracks
  induction tracks with
  | nil => intro m0; simp
  | cons t rest ih =>
    intro m0
    rw [List.foldl_cons, ih, hstep, List.filter_cons]
    by_cases h : featPred cond feat t <;> simp [h]

/-! ## `filter_tracks` (library_analyzer.py lines 395–485)

The function applies up to four stages in order: year range, artist-name
membership, genre substring membership (one uncached artist lookup per
surviving track; a lookup exception or an empty artist list drops the
track), and a single mood predicate over five moods (no `chill` branch).
Each stage runs only when its argument is truthy. -/

structure FilterArgs where
  genres : Option (List String)
  mood : Option String
  year_from : Option Nat
  year_to : Option Nat
  artists : Option (List String)
  deriving Repr, DecidableEq

/-- `t.get('release_year') and (not year_from or t['release_year'] >= year_from)
and (not year_to or t['release_year'] <= year_to)`. -/
def yearPass (yf yt : Option Nat) (t : Track) : Bool :=
  match t.release_year with
  | none => false
  | some y =>
    (y != 0) &&
    (!(pyTruthyNat yf) || decide (yf.getD 0 ≤ y)) &&
    (!(pyTruthyNat yt) || decide (y ≤ yt.getD 0))

def applyYearStage (yf yt : Option Nat) (ts : List Track) : List Track :=
  if pyTruthyNat yf || pyTruthyNat yt then ts.filter (yearPass yf yt) else ts

/-- Python's `str.lower()`: character-wise lowercasing (defined on the
character list so that concrete instances reduce in the kernel). -/
def strLower (s : String) : String :=
  ⟨s.data.map Char.toLower⟩

/-- `any(artist_name.lower() in artists_lower for ...)` with
`artists_lower = [a.strip().lower() for a in artists if a.strip()]`. -/
def artistsPass (alist : List String) (t : Track) : Bool :=
  let artists_lower := (alist.filter (fun a => !a.trim.isEmpty)).map
    (fun a => strLower a.trim)
  t.artists.any (fun a => decide (strLower a.name ∈ artists_lower))

def applyArtistsStage (alist : Option (List String)) (ts : List Track) :
    List Track :=
  if pyTruthyList alist then ts.filter (artistsPass (alist.getD [])) else ts

/-- Python's `sub in s` on strings: `pat` occurs as a contiguous
substring of the character list. The empty pattern always matches. -/
def infixCheck (pat : List Char) : List Char → Bool
  | [] => pat.isEmpty
  | h :: t => pat.isPrefixOf (h :: t) || infixCheck pat t

/-- The per-track body of the genre-filter loop: primary-artist lookup
(the `IndexError` on an artist-less track and a lookup exception are both
caught, dropping the track), then
`any(any(filter_genre in genre for genre in artist_genres) for filter_genre in genres_lower)`
where `in` on strings is substring membership. -/
def genrePass (ag : String → Option (List String)) (glist : List String)
    (t : Track) : Bool :=
  let genres_lower := (glist.filter (fun g => !g.trim.isEmpty)).map
    (fun g => strLower g.trim)
  match t.artists with
  | [] => false
  | a :: _ =>
    match ag a.id with
    | none => false
    | some gs =>
      let artist_genres := gs.map strLower
      genres_lower.any (fun fg => artist_genres.any
        (fun g => infixCheck fg.toList g.toList))

def applyGenresStage (ag : String → Option (List String))
    (glist : Option (List String)) (ts : List Track) : List Track :=
  if pyTruthyList glist then ts.filter (genrePass ag (glist.getD [])) else ts

/-- The `if/elif` chain of the mood filter: five branches, no `chill`. -/
def moodPass (mood : String) (f : AudioFeatures) : Bool :=
  let mood_lower := strLower mood
  (mood_lower == "happy" && happyCond f) ||
  (mood_lower == "sad" && sadCond f) ||
  (mood_lower == "energetic" && energeticCond f) ||
  (mood_lower == "calm" && calmCond f) ||
  (mood_lower == "party" && partyCond f)

def applyMoodStage (feat : String → Option AudioFeatures)
    (mood : Option String) (ts : List Track) : List Track :=
  if pyTruthyStr mood then ts.filter (featPred (moodPass (mood.getD "")) feat)
  else ts

/-- `filter_tracks`: the four optional stages applied in source order. -/
def filter_tracks (ag : String → Option (List String))
    (feat : String → Option AudioFeatures) (tracks : List Track)
    (args : FilterArgs) : List Track :=
  applyMoodStage feat args.mood
    (applyGenresStage ag args.genres
      (applyArtistsStage args.artists
        (applyYearStage args.year_from args.year_to tracks)))

/-- Filter arguments supplying only a mood predicate. -/
def moodOnly (m : String) : FilterArgs := ⟨none, some m, none, none, none⟩

lemma moodPass_happy_eval (f : AudioFeatures) : moodPass "Happy" f = happyCond f := by
  have h1 : ((strLower "Happy") == "happy") = true := by decide
  have h2 : ((strLower "Happy") == "sad") = false := by decide
  have h3 : ((strLower "Happy") == "energetic") = false := by decide
  have h4 : ((strLower "Happy") == "calm") = false := by decide
  have h5 : ((strLower "Happy") == "party") = false := by decide
  simp [moodPass, h1, h2, h3, h4, h5]

lemma moodPass_sad_eval (f : AudioFeatures) : moodPass "Sad" f = sadCond f := by
  have h1 : ((strLower "Sad") == "happy") = false := by decide
  have h2 : ((strLower "Sad") == "sad") = true := by decide
  have h3 : ((strLower "Sad") == "energetic") = false := by decide
  have h4 : ((strLower "Sad") == "calm") = false := by decide
  have h5 : ((strLower "Sad") == "party") = false := by decide
  simp [moodPass, h1, h2, h3, h4, h5]

lemma moodPass_energetic_eval (f : AudioFeatures) :
    moodPass "Energetic" f = energeticCond f := by
  have h1 : ((strLower "Energetic") == "happy") = false := by decide
  have h2 : ((strLower "Energetic") == "sad") = false := by decide
  have h3 : ((strLower "Energetic") == "energetic") = true := by decide
  have h4 : ((strLower "Energetic") == "calm") = false := by decide
  have h5 : ((strLower "Energetic") == "party") = false := by decide
  simp [moodPass, h1, h2, h3, h4, h5]

lemma moodPass_calm_eval (f : AudioFeatures) : moodPass "Calm" f = calmCond f := by
  have h1 : ((strLower "Calm") == "happy") = false := by decide
  have h2 : ((strLower "Calm") == "sad") = false := by decide
  have h3 : ((strLower "Calm") == "energetic") = false := by decide
  have h4 : ((strLower "Calm") == "calm") = true := by decide
  have h5 : ((strLower "Calm") == "party") = false := by decide
  simp [moodPass, h1, h2, h3, h4, h5]

lemma moodPass_party_eval (f : AudioFeatures) : moodPass "Party" f = partyCond f := by
  have h1 : ((strLower "Party") == "happy") = false := by decide
  have h2 : ((strLower "Party") == "sad") = false := by decide
  have h3 : ((strLower "Party") == "energetic") = false := by decide
  have h4 : ((strLower "Party") == "calm") = false := by decide
  have h5 : ((strLower "Party") == "party") = true := by decide
  simp [moodPass, h1, h2, h3, h4, h5]

lemma moodPass_chill_eval (f : AudioFeatures) : moodPass "Chill" f = false := by
  have h1 : ((strLower "Chill") == "happy") = false := by decide
  have h2 : ((strLower "Chill") == "sad") = false := by decide
  have h3 : ((strLower "Chill") == "energetic") = false := by decide
  have h4 : ((strLower "Chill") == "calm") = false := by decide
  have h5 : ((strLower "Chill") == "party") = false := by decide
  simp [moodPass, h1, h2, h3, h4, h5]

lemma featPred_congr (c1 c2 : AudioFeatures → Bool) (h : ∀ f, c1 f = c2 f)
    (feat : String → Option AudioFeatures) (t : Track) :
    featPred c1 feat t = featPred c2 feat t := by
  unfold featPred
  cases feat t.id <;> simp [h]

lemma analyze_mood_happy (feat : String → Option AudioFeatures)
    (tracks : List Track) :
    (analyze_library_by_mood feat tracks).happy =
      tracks.filter (featPred happyCond feat) := by
  unfold analyze_library_by_mood
  rw [foldl_moodStep_proj feat MoodMap.happy happyCond (moodStep_happy feat)]
  simp

lemma analyze_mood_sad (feat : String → Option AudioFeatures)
    (tracks : List Track) :
    (analyze_library_by_mood feat tracks).sad =
      tracks.filter (featPred sadCond feat) := by
  unfold analyze_library_by_mood
  rw [foldl_moodStep_proj feat MoodMap.sad sadCond (moodStep_sad feat)]
  simp

lemma analyze_mood_energetic (feat : String → Option AudioFeatures)
    (tracks : List Track) :
    (analyze_library_by_mood feat tracks).energetic =
      tracks.filter (featPred energeticCond feat) := by
  unfold analyze_library_by_mood
  rw [foldl_moodStep_proj feat MoodMap.energetic energeticCond (moodStep_energetic feat)]
  simp

lemma analyze_mood_calm (feat : String → Option AudioFeatures)
    (tracks : List Track) :
    (analyze_library_by_mood feat tracks).calm =
      tracks.filter (featPred calmCond feat) := by
  unfold analyze_library_by_mood
  rw [foldl_moodStep_proj feat MoodMap.calm calmCond (moodStep_calm feat)]
  simp

lemma analyze_mood_party (feat : String → Option AudioFeatures)
    (tracks : List Track) :
    (analyze_library_by_mood feat tracks).party =
      tracks.filter (featPred partyCond feat) := by
  unfold analyze_library_by_mood
  rw [foldl_moodStep_proj feat MoodMap.party partyCond (moodStep_party feat)]
  simp

lemma filter_tracks_moodOnly (ag : String → Option (List String))
    (feat : String → Option AudioFeatures) (ts : List Track) (m : String)
    (hm : m.isEmpty = false) :
    filter_tracks ag feat ts (moodOnly m) =
      ts.filter (featPred (moodPass m) feat) := by
  unfold filter_tracks moodOnly applyYearStage applyArtistsStage applyGenresStage
    applyMoodStage
  simp [pyTruthyNat, pyTruthyList, pyTruthyStr, hm]

lemma mem_applyMoodStage (feat : String → Option AudioFeatures)
    (mood : Option String) (ts : List Track) (t : Track) :
    t ∈ applyMoodStage feat mood ts → t ∈ ts := by
  unfold applyMoodStage
  split
  · exact fun h => (List.mem_filter.1 h).1
  · exact id

lemma mem_applyGenresStage (ag : String → Option (List String))
    (glist : Option (List String)) (ts : List Track) (t : Track) :
    t ∈ applyGenresStage ag glist ts → t ∈ ts := by
  unfold applyGenresStage
  split
  · exact fun h => (List.mem_filter.1 h).1
  · exact id

lemma mem_applyArtistsStage (alist : Option (List String)) (ts : List Track)
    (t : Track) :
    t ∈ applyArtistsStage alist ts → t ∈ ts := by
  unfold applyArtistsStage
  split
  · exact fun h => (List.mem_filter.1 h).1
  · exact id

/-! ## `get_tracks_from_playlists` — the Deduplicator
(library_analyzer.py lines 345–393)

Sources are processed in order: the `liked_songs` pseudo-source is a
plain track sequence; a regular playlist yields page items whose
`item['track']` may be `None` (skipped). Both branches append a track and
record its id in `seen_track_ids` only when the id is new. A source whose
fetch raises is skipped wholesale (equivalent to an empty source here). -/

inductive TrackSource where
  | liked (ts : List Track)
  | playlist (items : List (Option Track))

/-- The track sequence a source contributes before deduplication. -/
def sourceItems : TrackSource → List Track
  | .liked ts => ts
  | .playlist items => items.filterMap (fun x => x)

/-- Append-if-unseen, the common body of both branches
(state: collected tracks, seen id set). -/
def dedupStep (st : List Track × List String) (t : Track) :
    List Track × List String :=
  if t.id ∈ st.2 then st else (st.1 ++ [t], t.id :: st.2)

/-- Process one source against the running state. -/
def addFromSource (st : List Track × List String) :
    TrackSource → List Track × List String
  | .liked ts => ts.foldl dedupStep st
  | .playlist items => items.foldl (fun st it =>
      match it with
      | none => st
      | some t => dedupStep st t) st

/-- `get_tracks_from_playlists`: fold all sources with a shared seen-set,
return the combined track list. -/
def get_tracks_from_playlists (sources : List TrackSource) : List Track :=
  (sources.foldl addFromSource ([], [])).1

/-- Specification function, from the spec's words: keep the first
occurrence of each track identity, in first-seen order, relative to an
already-seen id set. -/
def dedupFirstSeen (seen : List String) : List Track → List Track
  | [] => []
  | t :: ts =>
    if t.id ∈ seen then dedupFirstSeen seen ts
    else t :: dedupFirstSeen (t.id :: seen) ts

/-! ### Concrete example values used by counterexamples and witnesses -/

def exArtistA : ArtistRef := ⟨"a1", "Artist A"⟩

def trkU : Track := ⟨"t1", "Song One", [exArtistA], some "spotify:track:t1", some 1994⟩

def trkNoUri : Track := ⟨"t2", "Song Two", [exArtistA], none, some 1984⟩

def cwWriteFail : CatalogWriter String := ⟨fun _ => some "p1", fun _ _ => true⟩

def cwOk : CatalogWriter String := ⟨fun g => some ("pl-" ++ g), fun _ _ => false⟩

def cwOkNat : CatalogWriter Nat := ⟨fun _ => some "p", fun _ _ => false⟩

def trkA1 : Track := ⟨"s1", "First", [exArtistA], some "u1", some 2000⟩

def trkA2 : Track := ⟨"s2", "Second", [exArtistA], some "u2", some 2001⟩

def exGenreOracle : String → Option (List String) := fun _ => some ["rock"]

/-- Features satisfying exactly the Chill thresholds
(`acousticness 0.6 > 0.5`, `energy 0.3 < 0.5`). -/
def chillFeat : AudioFeatures := ⟨0.5, 0.3, 0.5, 0.6, 90⟩

def trkChill : Track := ⟨"c1", "Quiet", [exArtistA], some "uc", some 2010⟩

def exFeatChill : String → Option AudioFeatures :=
  fun i => if i = "c1" then some chillFeat else none

def exAgNone : String → Option (List String) := fun _ => none

def trkNoYear : Track := ⟨"n1", "Undated", [exArtistA], some "un", none⟩

def argsYearFrom : FilterArgs := ⟨none, none, some 1990, none, none⟩

def argsYearZero : FilterArgs := ⟨none, none, some 0, none, none⟩

end SpotifySort

namespace SpotifySort

/-! ## Claim theorems for the Batch Playlist Builder -/

/-- Claim C1, counterexample: in `create_genre_playlists`, after playlist
creation succeeds, every batch-write call for the bucket fails
(`add_tracks_to_playlist` returns `False`), yet the bucket is still
included in the returned success map — the claim says it must be
excluded. -/
theorem c1_counterexample :
    (create_genre_playlists cwWriteFail [("rock", [trkU])]).created = [("rock", "p1")] ∧
    (add_tracks_to_playlist (cwWriteFail.addFail "p1")
        ([trkU].filterMap writableUri)).2 = false := by
  exact ⟨rfl, by decide⟩

/-- Claim C1, amended: a bucket appears in the success map of
`create_genre_playlists` iff its track list is non-empty and the
playlist-creation call succeeded; batch-write failures are swallowed
(`add_tracks_to_playlist` catches them and returns `False`, which the
builder ignores) and do not exclude the bucket. All buckets are processed
independently regardless of other buckets' outcomes. -/
theorem create_genre_playlists_success_map (cw : CatalogWriter String)
    (genre_map : List (String × List Track)) :
    (create_genre_playlists cw genre_map).created =
      genre_map.filterMap (expectedEntry cw) := by
  unfold create_genre_playlists
  rw [foldl_genreStep]
  simp

/-- Claim C2, counterexample: a bucket whose track list is non-empty but
contains zero writable tracks still triggers a playlist-creation call in
`create_genre_playlists` (and the empty playlist lands in the success
map) — the claim says no creation call occurs. -/
theorem c2_counterexample :
    (create_genre_playlists cwOk [("rock", [trkNoUri])]).createCalls = ["rock"] ∧
    [trkNoUri].filterMap writableUri = [] ∧
    (create_genre_playlists cwOk [("rock", [trkNoUri])]).created = [("rock", "pl-rock")] := by
  refine ⟨rfl, rfl, rfl⟩

/-- Claim C2, amended: `create_genre_playlists` issues a playlist-creation
call for every bucket with a non-empty track list, regardless of how many
of its tracks have a resolvable URI; a bucket with zero writable tracks is
not skipped, so an empty remote playlist is created for it. -/
theorem create_genre_playlists_creation_attempts (cw : CatalogWriter String)
    (genre_map : List (String × List Track)) :
    (create_genre_playlists cw genre_map).createCalls =
      (genre_map.filter (fun kv => !kv.2.isEmpty)).map Prod.fst := by
  unfold create_genre_playlists
  rw [foldl_genreStep]
  simp

/-- Claim C3, counterexample: in by-artist mode a non-empty bucket below
the `min_tracks` threshold (default 5) is silently skipped: no
playlist-creation call is attempted for it. -/
theorem c3_counterexample :
    (create_artist_playlists cwOk [("Artist A", [trkU])]).createCalls = [] ∧
    ([trkU] : List Track) ≠ [] := by
  exact ⟨rfl, by simp⟩

/-- Claim C3, amended: `create_artist_playlists` attempts a playlist
creation exactly for the buckets holding at least `min_tracks` tracks
(default 5); non-empty buckets below the threshold are skipped. In genre
(and mood) mode every non-empty bucket gets a creation attempt. -/
theorem builder_creation_attempt_coverage (cw cw' : CatalogWriter String)
    (artist_map genre_map : List (String × List Track)) (mt : Nat) :
    (create_artist_playlists cw artist_map mt).createCalls =
      (artist_map.filter (fun kv => mt ≤ kv.2.length)).map Prod.fst ∧
    (create_genre_playlists cw' genre_map).createCalls =
      (genre_map.filter (fun kv => !kv.2.isEmpty)).map Prod.fst := by
  constructor
  · unfold create_artist_playlists
    rw [foldl_artistStep]
    simp
  · unfold create_genre_playlists
    rw [foldl_genreStep]
    simp

/-- Claim C4, counterexample: `create_decade_playlists` processes the
decade buckets in first-appearance order, not ascending numeric order: a
1994 track followed by a 1984 track yields processing order
`[1990, 1980]`, which is not sorted. -/
theorem c4_counterexample :
    (create_decade_playlists cwOkNat [trkU, trkNoUri]).createCalls = [1990, 1980] ∧
    ¬ List.Sorted (· ≤ ·) ([1990, 1980] : List Nat) := by
  exact ⟨rfl, by decide⟩

/-- Claim C9: batch writes are not rolled back. The URIs are written in
sequential slices of at most 100 (`(chunks track_uris).flatten` recovers
the input and every batch is bounded by 100); if the calls for batches
`0..k-1` succeed and the call for batch `k` raises, then exactly the
first `k+1` write calls were issued — the earlier batches stay written,
the failing call was made, and no later batch is attempted — and
`add_tracks_to_playlist` returns `False`. -/
theorem add_tracks_no_rollback (fail : Nat → Bool) (track_uris : List String)
    (k : Nat) (hpre : ∀ j, j < k → fail j = false) (hfail : fail k = true)
    (hk : k < (chunks track_uris).length) :
    add_tracks_to_playlist fail track_uris = ((chunks track_uris).take (k + 1), false) ∧
    (chunks track_uris).flatten = track_uris ∧
    (chunks track_uris).all (fun b => b.length ≤ 100) = true := by
  refine ⟨?_, chunks_join track_uris, ?_⟩
  · have hne : track_uris.isEmpty = false := by
      cases htu : track_uris with
      | nil => subst htu; simp [chunks, chunksGo] at hk
      | cons x xs => simp
    unfold add_tracks_to_playlist
    rw [if_neg (by simp [hne])]
    exact runBatches_fail_at fail (chunks track_uris) 0 k
      (by simpa using hpre) (by simpa using hfail) hk
  · rw [List.all_eq_true]
    intro b hb
    simpa using chunks_length_le track_uris b hb

/-- Concrete instance of `add_tracks_no_rollback`: 150 URIs split into
batches of 100 and 50; the second call fails, both calls were issued and
the function returns `False`. -/
theorem add_tracks_no_rollback_witness :
    add_tracks_to_playlist (fun i => decide (i = 1)) (List.replicate 150 "u") =
      ((chunks (List.replicate 150 "u")).take 2, false) ∧
    (chunks (List.replicate 150 "u")).flatten = List.replicate 150 "u" ∧
    (chunks (List.replicate 150 "u")).all (fun b => b.length ≤ 100) = true :=
  add_tracks_no_rollback (fun i => decide (i = 1)) (List.replicate 150 "u") 1
    (by decide) (by decide) (by decide)

/-- Claim C4, amended: for every input track sequence,
`create_decade_playlists` processes the decade buckets in the order in
which each decade first appears among the tracks with a truthy release
year (Python dict insertion order), with no explicit sort. -/
theorem create_decade_playlists_order (cw : CatalogWriter Nat)
    (tracks : List Track) :
    (create_decade_playlists cw tracks).createCalls =
      firstSeen [] (tracks.filterMap decadeKey) := by
  unfold create_decade_playlists
  rw [foldl_decadeStep]
  have := decadeFold_keys tracks []
  simp only [List.map_nil, List.nil_append] at this
  simp [this]

/-- Claim C5, counterexample: two tracks sharing the same primary artist
id trigger two remote artist lookups in one genre-classification run
(the count is the second component), while there is only one distinct
primary-artist id — the claim says the counts must be equal. -/
theorem c5_counterexample :
    analyze_library_by_genre exGenreOracle [trkA1, trkA2] =
      some ([("rock", [trkA1, trkA2])], 2) ∧
    trkA1.artists.map ArtistRef.id = ["a1"] ∧
    trkA2.artists.map ArtistRef.id = ["a1"] ∧
    (2 : Nat) ≠ 1 := by
  refine ⟨by decide, rfl, rfl, by decide⟩

/-- Claim C5, amended: during one genre-classification run the number of
remote artist-lookup calls equals the number of tracks in the sequence —
one uncached call per track, so a repeated primary-artist id is looked up
once per track that carries it, not once per run. -/
theorem analyze_by_genre_call_count (ag : String → Option (List String))
    (tracks : List Track) (m : List (String × List Track)) (n : Nat)
    (h : analyze_library_by_genre ag tracks = some (m, n)) :
    n = tracks.length := by
  have := foldlM_genre_count ag tracks ([], 0) (m, n) h
  simpa using this

/-- Concrete instance of `analyze_by_genre_call_count`: a single-track run
issues exactly one lookup. -/
theorem analyze_by_genre_call_count_witness :
    analyze_library_by_genre exGenreOracle [trkA1] = some ([("rock", [trkA1])], 1) ∧
    (1 : Nat) = [trkA1].length :=
  ⟨by decide,
   analyze_by_genre_call_count exGenreOracle [trkA1] [("rock", [trkA1])] 1 (by decide)⟩

/-- Claim C6, counterexample: the mood filter has no `chill` branch. A
track whose features satisfy the Chill threshold predicate (the one used
by whole-library mood classification, which does bucket it under Chill)
does not pass the filter when `mood = "Chill"` — so the filter is not
equivalent to the threshold predicate for all six moods. -/
theorem c6_counterexample :
    chillCond chillFeat = true ∧
    (analyze_library_by_mood exFeatChill [trkChill]).chill = [trkChill] ∧
    filter_tracks exAgNone exFeatChill [trkChill] (moodOnly "Chill") = [] := by
  have ha : (0.6 : ℚ) > 0.5 := by norm_num
  have he : (0.3 : ℚ) < 0.5 := by norm_num
  have hv1 : ¬ ((0.5 : ℚ) > 0.6) := by norm_num
  have hv2 : ¬ ((0.5 : ℚ) < 0.4) := by norm_num
  have he1 : ¬ ((0.3 : ℚ) > 0.7) := by norm_num
  have hd1 : ¬ ((0.5 : ℚ) > 0.7) := by norm_num
  have hc1 : (0.3 : ℚ) < 0.4 := by norm_num
  have hc2 : (90 : ℚ) < 100 := by norm_num
  have hH : happyCond chillFeat = false := by simp [happyCond, chillFeat, hv1]
  have hS : sadCond chillFeat = false := by simp [sadCond, chillFeat, hv2]
  have hE : energeticCond chillFeat = false := by
    simp [energeticCond, chillFeat, he1]
  have hC : calmCond chillFeat = true := by simp [calmCond, chillFeat, hc1, hc2]
  have hP : partyCond chillFeat = false := by simp [partyCond, chillFeat, hd1]
  have hCh : chillCond chillFeat = true := by simp [chillCond, chillFeat, ha, he]
  refine ⟨hCh, ?_, ?_⟩
  · simp [analyze_library_by_mood, moodStep, exFeatChill, trkChill,
      hH, hS, hE, hC, hP, hCh]
  · rw [filter_tracks_moodOnly exAgNone exFeatChill [trkChill] "Chill" rfl]
    simp [featPred, exFeatChill, trkChill, moodPass_chill_eval]

/-- Claim C6, amended: for Happy, Sad, Energetic, Calm and Party the
composable filter's mood predicate agrees exactly with whole-library mood
classification: the filter output equals the corresponding mood bucket
(tracks with resolvable features satisfying that mood's thresholds, in
order). The sixth mood, Chill, is absent from the filter's `if/elif`
chain: filtering with `mood = "Chill"` passes no track at all. -/
theorem filter_mood_matches_thresholds (ag : String → Option (List String))
    (feat : String → Option AudioFeatures) (ts : List Track) :
    filter_tracks ag feat ts (moodOnly "Happy") =
      (analyze_library_by_mood feat ts).happy ∧
    filter_tracks ag feat ts (moodOnly "Sad") =
      (analyze_library_by_mood feat ts).sad ∧
    filter_tracks ag feat ts (moodOnly "Energetic") =
      (analyze_library_by_mood feat ts).energetic ∧
    filter_tracks ag feat ts (moodOnly "Calm") =
      (analyze_library_by_mood feat ts).calm ∧
    filter_tracks ag feat ts (moodOnly "Party") =
      (analyze_library_by_mood feat ts).party ∧
    filter_tracks ag feat ts (moodOnly "Chill") = [] := by
  refine ⟨?_, ?_, ?_, ?_, ?_, ?_⟩
  · rw [filter_tracks_moodOnly ag feat ts "Happy" rfl, analyze_mood_happy]
    exact List.filter_congr fun t _ =>
      featPred_congr _ _ moodPass_happy_eval feat t
  · rw [filter_tracks_moodOnly ag feat ts "Sad" rfl, analyze_mood_sad]
    exact List.filter_congr fun t _ =>
      featPred_congr _ _ moodPass_sad_eval feat t
  · rw [filter_tracks_moodOnly ag feat ts "Energetic" rfl, analyze_mood_energetic]
    exact List.filter_congr fun t _ =>
      featPred_congr _ _ moodPass_energetic_eval feat t
  · rw [filter_tracks_moodOnly ag feat ts "Calm" rfl, analyze_mood_calm]
    exact List.filter_congr fun t _ =>
      featPred_congr _ _ moodPass_calm_eval feat t
  · rw [filter_tracks_moodOnly ag feat ts "Party" rfl, analyze_mood_party]
    exact List.filter_congr fun t _ =>
      featPred_congr _ _ moodPass_party_eval feat t
  · rw [filter_tracks_moodOnly ag feat ts "Chill" rfl]
    apply List.filter_eq_nil_iff.2
    intro t _
    unfold featPred
    cases hft : feat t.id <;> simp [moodPass_chill_eval]

/-- Claim C10, counterexample: `year_from = 0` is a supplied year-range
bound, but it is falsy in Python, so the year stage is skipped entirely
and a track with an absent `release_year` passes the filter. -/
theorem c10_counterexample :
    filter_tracks exAgNone exFeatChill [trkNoYear] argsYearZero = [trkNoYear] ∧
    argsYearZero.year_from = some 0 ∧
    trkNoYear.release_year = none := by
  refine ⟨by decide, rfl, rfl⟩

/-- Claim C10, amended: whenever at least one year-range bound is
supplied with a truthy (nonzero) value, every track with an absent
`release_year` is excluded from the filter output, regardless of the
other supplied predicates. -/
theorem year_bound_excludes_missing_year (ag : String → Option (List String))
    (feat : String → Option AudioFeatures) (args : FilterArgs)
    (ts : List Track) (t : Track)
    (hb : (pyTruthyNat args.year_from || pyTruthyNat args.year_to) = true)
    (hy : t.release_year = none) :
    t ∉ filter_tracks ag feat ts args := by
  intro hmem
  unfold filter_tracks at hmem
  have h1 := mem_applyGenresStage ag args.genres _ t
    (mem_applyMoodStage feat args.mood _ t hmem)
  have h2 := mem_applyArtistsStage args.artists _ t h1
  unfold applyYearStage at h2
  rw [hb] at h2
  simp only [if_true] at h2
  have hpass := (List.mem_filter.1 h2).2
  unfold yearPass at hpass
  rw [hy] at hpass
  exact absurd hpass (by simp)

/-- Concrete instance of `year_bound_excludes_missing_year`: with
`year_from = 1990` supplied, an undated track is excluded. -/
theorem year_bound_excludes_missing_year_witness :
    trkNoYear ∉ filter_tracks exAgNone exFeatChill [trkNoYear] argsYearFrom :=
  year_bound_excludes_missing_year exAgNone exFeatChill argsYearFrom
    [trkNoYear] trkNoYear (by decide) rfl

/-- Claim C7, counterexample: `limit = 0` is a supplied optional limit,
but it is falsy in Python (`if limit:` and `tracks[:limit] if limit`), so
`get_saved_tracks` fetches and returns everything instead of
`min(total_items, 0) = 0` items. -/
theorem c7_counterexample :
    (get_saved_tracks [⟨[trkA1], false⟩] (some 0)).1 = [trkA1] ∧
    (get_saved_tracks [⟨[trkA1], false⟩] (some 0)).1.length ≠ 0 := by
  refine ⟨by decide, by decide⟩

/-- Claim C7, amended: for every well-formed page-fetch sequence (each
non-final page non-empty and announcing a successor, the final page
announcing none) and every limit that is either absent or positive, the
Paginator returns exactly `min(total_items, limit-or-infinity)` items in
source (page) order — the `take` prefix of the flattened pages — and
issues no page-fetch call beyond the one whose items satisfy the limit
(`pagesNeeded` counts the minimal fetches). An empty first page yields an
empty sequence after a single call, without error. A limit supplied as
`0` is falsy in Python and behaves as an absent limit. -/
theorem get_saved_tracks_spec (pages : List Page) (l : Nat) (b : Bool)
    (rest2 : List Page) (lim2 : Option Nat)
    (hwf : wellFormed pages = true) (hl : 0 < l) :
    (get_saved_tracks pages (some l)).1 =
      ((pages.map Page.items).flatten).take l ∧
    (get_saved_tracks pages (some l)).2 ≤ pagesNeeded l pages ∧
    (get_saved_tracks pages none).1 = (pages.map Page.items).flatten ∧
    get_saved_tracks (⟨[], b⟩ :: rest2) lim2 = ([], 1) := by
  have hl0 : l ≠ 0 := by omega
  refine ⟨?_, ?_, ?_, ?_⟩
  · have h := fetchLoop_items_limited l hl pages [] hwf (by simpa using hl)
    simp only [List.nil_append] at h
    simp [get_saved_tracks, pyTruthyNat, hl0, h]
  · have h := fetchLoop_calls l hl pages [] hwf (by simpa using hl)
    simp only [List.length_nil, Nat.sub_zero] at h
    simpa [get_saved_tracks] using h
  · have h := fetchLoop_items_nolimit pages [] hwf
    simp only [List.nil_append] at h
    simp [get_saved_tracks, pyTruthyNat, h]
  · unfold get_saved_tracks fetchLoop
    simp

/-- Concrete instance of `get_saved_tracks_spec`: two pages of 2 and 1
tracks, limit 3. -/
theorem get_saved_tracks_spec_witness :
    (get_saved_tracks [⟨[trkA1, trkA2], true⟩, ⟨[trkChill], false⟩] (some 3)).1 =
      ((([⟨[trkA1, trkA2], true⟩, ⟨[trkChill], false⟩] : List Page).map
        Page.items).flatten).take 3 ∧
    (get_saved_tracks [⟨[trkA1, trkA2], true⟩, ⟨[trkChill], false⟩] (some 3)).2 ≤
      pagesNeeded 3 [⟨[trkA1, trkA2], true⟩, ⟨[trkChill], false⟩] ∧
    (get_saved_tracks [⟨[trkA1, trkA2], true⟩, ⟨[trkChill], false⟩] none).1 =
      (([⟨[trkA1, trkA2], true⟩, ⟨[trkChill], false⟩] : List Page).map
        Page.items).flatten ∧
    get_saved_tracks (⟨[], true⟩ :: []) (some 5) = ([], 1) :=
  get_saved_tracks_spec [⟨[trkA1, trkA2], true⟩, ⟨[trkChill], false⟩] 3 true []
    (some 5) (by decide) (by decide)

/-! ### Lemmas for the Deduplicator -/

lemma foldl_optStep (items : List (Option Track)) :
    ∀ st, items.foldl (fun st it =>
        match it with
        | none => st
        | some t => dedupStep st t) st =
      (items.filterMap (fun x => x)).foldl dedupStep st := by
  induction items with
  | nil => intro st; simp
  | cons it rest ih =>
    intro st
    cases it with
    | none => simpa using ih st
    | some t => simpa using ih (dedupStep st t)

lemma foldl_sources (sources : List TrackSource) :
    ∀ st, sources.foldl addFromSource st =
      ((sources.map sourceItems).flatten).foldl dedupStep st := by
  induction sources with
  | nil => intro st; simp
  | cons src rest ih =>
    intro st
    rw [List.foldl_cons, List.map_cons, List.flatten_cons, List.foldl_append, ih]
    congr 1
    cases src with
    | liked ts => rfl
    | playlist items => exact foldl_optStep items st

lemma foldl_dedupStep_spec :
    ∀ (ts : List Track) (acc : List Track) (seen : List String),
      (ts.foldl dedupStep (acc, seen)).1 = acc ++ dedupFirstSeen seen ts := by
  intro ts
  induction ts with
  | nil => intro acc seen; simp [dedupFirstSeen]
  | cons t rest ih =>
    intro acc seen
    rw [List.foldl_cons, dedupFirstSeen]
    by_cases h : t.id ∈ seen
    · rw [dedupStep, if_pos h, ih, if_pos h]
    · rw [dedupStep, if_neg h, ih, if_neg h]
      simp

lemma dedupFirstSeen_nodup :
    ∀ (ts : List Track) (seen : List String),
      ((dedupFirstSeen seen ts).map Track.id).Nodup ∧
      ∀ t ∈ dedupFirstSeen seen ts, t.id ∉ seen := by
  intro ts
  induction ts with
  | nil => intro seen; simp [dedupFirstSeen]
  | cons t rest ih =>
    intro seen
    rw [dedupFirstSeen]
    by_cases h : t.id ∈ seen
    · rw [if_pos h]
      exact ih seen
    · rw [if_neg h]
      obtain ⟨hnd, hout⟩ := ih (t.id :: seen)
      refine ⟨?_, ?_⟩
      · rw [List.map_cons, List.nodup_cons]
        refine ⟨?_, hnd⟩
        intro hc
        obtain ⟨u, hu, hid⟩ := List.mem_map.1 hc
        exact hout u hu (hid ▸ List.mem_cons_self _ _)
      · intro u hu
        rcases List.mem_cons.1 hu with rfl | hu'
        · exact h
        · exact fun hc => hout u hu' (List.mem_cons_of_mem _ hc)

lemma dedupFirstSeen_mem_id :
    ∀ (ts : List Track) (seen : List String) (i : String),
      i ∈ (dedupFirstSeen seen ts).map Track.id ↔
        (i ∈ ts.map Track.id ∧ i ∉ seen) := by
  intro ts
  induction ts with
  | nil => intro seen i; simp [dedupFirstSeen]
  | cons t rest ih =>
    intro seen i
    rw [dedupFirstSeen]
    by_cases h : t.id ∈ seen
    · rw [if_pos h, ih]
      constructor
      · rintro ⟨hm, hs⟩
        refine ⟨?_, hs⟩
        simp only [List.map_cons, List.mem_cons]
        exact Or.inr hm
      · rintro ⟨hm, hs⟩
        simp only [List.map_cons, List.mem_cons] at hm
        rcases hm with rfl | hm2
        · exact absurd h hs
        · exact ⟨hm2, hs⟩
    · rw [if_neg h]
      simp only [List.map_cons, List.mem_cons]
      rw [ih]
      constructor
      · rintro (rfl | ⟨hm, hs⟩)
        · exact ⟨Or.inl rfl, h⟩
        · exact ⟨Or.inr hm, fun hc => hs (List.mem_cons_of_mem _ hc)⟩
      · rintro ⟨rfl | hm, hs⟩
        · exact Or.inl rfl
        · by_cases hit : i = t.id
          · exact Or.inl hit
          · refine Or.inr ⟨hm, fun hc => ?_⟩
            rcases List.mem_cons.1 hc with h1 | h2
            · exact hit h1
            · exact hs h2

lemma dedupFirstSeen_sublist :
    ∀ (ts : List Track) (seen : List String),
      (dedupFirstSeen seen ts).Sublist ts := by
  intro ts
  induction ts with
  | nil => intro seen; simp [dedupFirstSeen]
  | cons t rest ih =>
    intro seen
    rw [dedupFirstSeen]
    by_cases h : t.id ∈ seen
    · rw [if_pos h]
      exact (ih seen).cons _
    · rw [if_neg h]
      exact (ih (t.id :: seen)).cons₂ _

/-- Claim C8: the Deduplicator's combined output keeps each distinct
track identity exactly once, in first-seen order, across all sources
(liked-songs pseudo-source included): the output is the first-occurrence
deduplication of the concatenated source sequences — an order-preserving
sublist with duplicate-free identities covering exactly the identities
that occur in any source; a re-introduced identity is dropped silently. -/
theorem get_tracks_from_playlists_dedup (sources : List TrackSource) :
    get_tracks_from_playlists sources =
      dedupFirstSeen [] ((sources.map sourceItems).flatten) ∧
    ((get_tracks_from_playlists sources).map Track.id).Nodup ∧
    (∀ i, i ∈ ((sources.map sourceItems).flatten).map Track.id ↔
      i ∈ (get_tracks_from_playlists sources).map Track.id) ∧
    (get_tracks_from_playlists sources).Sublist
      ((sources.map sourceItems).flatten) := by
  have hmain : get_tracks_from_playlists sources =
      dedupFirstSeen [] ((sources.map sourceItems).flatten) := by
    unfold get_tracks_from_playlists
    rw [foldl_sources sources ([], [])]
    rw [foldl_dedupStep_spec]
    simp
  refine ⟨hmain, ?_, ?_, ?_⟩
  · rw [hmain]
    exact (dedupFirstSeen_nodup _ []).1
  · intro i
    rw [hmain, dedupFirstSeen_mem_id]
    simp
  · rw [hmain]
    exact dedupFirstSeen_sublist _ []

end SpotifySort
